import Mathlib

/-!
Verification of the query-translation, execution-dispatch, size-guard and
bulk-import core of `lib/routes/collection.js` (mongo-express routes).

JavaScript values flowing through the routes are embedded as the inductive
type `BVal`; JS numbers are embedded as `JsNum` (an integer or `NaN`; the
claims under verification never exercise fractional values, and fractional
numeric literals are mapped to `nan` by the string-to-number models).
External collaborators that are not part of this repository's source
(the `mongodb-query-parser` based `bson.toSafeBSON`, `JSON.parse`,
`EJSON.parse`, the document store, and `lib/utils.js` size helpers) are
either taken as parameters or modelled from the spec, as indicated on each
definition.
-/

set_option maxHeartbeats 1000000
set_option maxRecDepth 100000

/-- A JavaScript number as it occurs in this core: an integer or `NaN`. -/
inductive JsNum where
  | int (n : Int)
  | nan
deriving DecidableEq

/-- Embedded JavaScript/BSON values: the document values handled by the
collection routes. `jsUndefined` is JS `undefined`; `objectId`, `regex` and
`binary` embed the BSON scalar types produced by the typed converters. -/
inductive BVal where
  | null
  | jsUndefined
  | bool (b : Bool)
  | num (n : JsNum)
  | str (s : String)
  | objectId (hex : String)
  | regex (pattern : String) (flags : String)
  | binary (bytes : List Nat) (subtype : Nat)
  | obj (fields : List (String × BVal))
  | arr (elems : List BVal)

/-- A document is a JS object: an ordered association list of fields. -/
abbrev Doc := List (String × BVal)

/-- JS property lookup on an association list (first binding wins). -/
def lookupAL (k : String) : Doc → Option BVal
  | [] => none
  | (p, v) :: rest => if p = k then some v else lookupAL k rest

/-- `doc[k]` as in JS: `undefined` when the property is absent. -/
def getField (d : Doc) (k : String) : BVal :=
  (lookupAL k d).getD .jsUndefined

/-- `doc[k] = v` on an existing key: replaces the binding in place
(JS object keys are unique, so replacing every binding of `k` agrees
with the single-slot mutation). -/
def setField (k : String) (v : BVal) (d : Doc) : Doc :=
  d.map (fun pv => if pv.1 = k then (pv.1, v) else pv)

/-- Field lookup through a `BVal`: `undefined` (`none`) off objects. -/
def lookupField (k : String) : BVal → Option BVal
  | .obj fs => lookupAL k fs
  | _ => none

/-- `Object.keys(x).length` as used by the truthiness checks in
`_getAggregatePipeline` (`Object.keys` of an array yields its index
strings, of a string its character indices, of other primitives `[]`). -/
def objKeysLen : BVal → Nat
  | .obj fs => fs.length
  | .arr xs => xs.length
  | .str s => s.length
  | _ => 0

/-- ASCII uppercase of one character (the tags under test are ASCII). -/
def upChar (c : Char) : Char :=
  if 'a' ≤ c ∧ c ≤ 'z' then Char.ofNat (c.toNat - 32) else c

/-- `s.toUpperCase()` over the ASCII range. -/
def upStr (s : String) : String :=
  String.mk (s.toList.map upChar)

/-- JS whitespace for numeric-parsing purposes. -/
def isJsWs (c : Char) : Bool :=
  c = ' ' ∨ c = '\t' ∨ c = '\n' ∨ c = '\r'

/-- Strip surrounding whitespace from a character list. -/
def trimCs (cs : List Char) : List Char :=
  ((cs.dropWhile isJsWs).reverse.dropWhile isJsWs).reverse

/-- Leading-decimal-digits value of a character list: `none` when the
list does not start with a digit (the `NaN` case of `parseInt`). -/
def digitsVal (cs : List Char) : Option Nat :=
  let ds := cs.takeWhile Char.isDigit
  if ds.isEmpty then none
  else some (ds.foldl (fun acc c => 10 * acc + (c.toNat - '0'.toNat)) 0)

/-- `Number.parseInt(s, 10)`: skip surrounding whitespace, optional sign,
then the longest leading run of decimal digits; `none` models `NaN`. -/
def jsParseIntStr (s : String) : Option Int :=
  match trimCs s.toList with
  | '-' :: rest => (digitsVal rest).map (fun n => -(n : Int))
  | '+' :: rest => (digitsVal rest).map (fun n => (n : Int))
  | cs => (digitsVal cs).map (fun n => (n : Int))

/-- `Number.parseInt` lifted to an optional parameter: `parseInt` of
`undefined` stringifies to `"undefined"` and yields `NaN`. -/
def jsParseIntOpt (o : Option String) : Option Int :=
  o.bind jsParseIntStr

/-- `Number(s)` restricted to the values exercised here: surrounding
whitespace ignored, empty string is `0`, optionally signed decimal
integer strings parse, anything else (including fractional literals,
which are outside this integer model) is `NaN`. -/
def jsNumber (s : String) : JsNum :=
  let t := trimCs s.toList
  if t.isEmpty then .int 0
  else
    match t with
    | '-' :: rest =>
      if rest ≠ [] ∧ rest.all Char.isDigit then
        .int (-(((rest.foldl (fun acc c => 10 * acc + (c.toNat - '0'.toNat)) 0 : Nat)) : Int))
      else .nan
    | cs =>
      if cs.all Char.isDigit then
        .int ((cs.foldl (fun acc c => 10 * acc + (c.toNat - '0'.toNat)) 0 : Nat) : Int)
      else .nan

/-- JS truthiness of an optional string parameter: present and non-empty. -/
def truthy : Option String → Bool
  | some s => !s.isEmpty
  | none => false

/-- The errors thrown by the translation core. -/
inductive JsError where
  | invalidType (tag : Option String)
  | invalidQuery
  | jsonSyntax
  | parseObjectIdFail
  | jsTypeError
deriving DecidableEq

/-- The external parsers used by the routes, taken as parameters:
`jsonParse` models `JSON.parse` (the `J` converter), `toSafeBSON` models
`bson.toSafeBSON` (`mongodb-query-parser`: parses the extended literal
grammar, `none` on unparsable input), `ejsonParse` models `EJSON.parse`
(line-wise import parsing, `none` models a thrown parse error). -/
structure Parsers where
  jsonParse : String → Option BVal
  toSafeBSON : String → Option BVal
  ejsonParse : String → Option BVal

/-- The request-parameter shape consumed by the collection routes. -/
structure Req where
  key : Option String := none
  value : Option String := none
  type : Option String := none
  q : Option String := none
  sort : List (String × String) := []
  projection : Option String := none
  skip : Option String := none
  runAggregate : Option String := none

/-- The configuration slice the core reads. -/
structure ConfigOptions where
  documentsPerPage : Int
  maxPropSize : Nat
  maxRowSize : Nat

structure ConfigMongodb where
  allowDiskUse : Bool
  awsDocumentDb : Bool

structure Config where
  options : ConfigOptions
  mongodb : ConfigMongodb

/-- Hexadecimal digit value, case-insensitive. -/
def hexVal (c : Char) : Option Nat :=
  if '0' ≤ c ∧ c ≤ '9' then some (c.toNat - '0'.toNat)
  else if 'a' ≤ c ∧ c ≤ 'f' then some (c.toNat - 'a'.toNat + 10)
  else if 'A' ≤ c ∧ c ≤ 'F' then some (c.toNat - 'A'.toNat + 10)
  else none

/-- `Buffer.from(s, 'hex')`: decode leading complete hex pairs, stopping
at the first character that is not a hex digit. -/
def hexPairs : List Char → List Nat
  | a :: b :: rest =>
    match hexVal a, hexVal b with
    | some x, some y => (16 * x + y) :: hexPairs rest
    | _, _ => []
  | _ => []

/-- Modelled from the spec: `bson.parseObjectId` (in `lib/bson.js`, not
under `src/`) parses a 24-hex-character store identifier and fails with a
parse error on malformed input. -/
def parseObjectId (s : String) : Except JsError BVal :=
  if s.length = 24 ∧ s.toList.all (fun c => (hexVal c).isSome) then
    .ok (.objectId s)
  else .error .parseObjectIdFail

/-- `Binary.SUBTYPE_UUID` in the mongodb driver. -/
def SUBTYPE_UUID : Nat := 4

/-- The typed value converters table of `collection.js` (`converters`),
dispatched on an already-uppercased tag; a tag outside `{J,N,O,R,U,S}`
(including an absent `type` parameter, which fails the JS
`type in converters` test) throws the invalid-type error. -/
def convertByTag (P : Parsers) (tag : String) (value : String) : Except JsError BVal :=
  if tag = "J" then
    match P.jsonParse value with
    | some w => .ok w
    | none => .error .jsonSyntax
  else if tag = "N" then .ok (.num (jsNumber value))
  else if tag = "O" then parseObjectId value
  else if tag = "R" then .ok (.regex value "i")
  else if tag = "U" then
    .ok (.binary (hexPairs ((value.replace "-" "").toList)) SUBTYPE_UUID)
  else if tag = "S" then .ok (.str value)
  else .error (.invalidType (some tag))

/-- Conversion dispatch on the optional, case-insensitively uppercased
`type` parameter, as performed by `_getQuery`. -/
def convertTagged (P : Parsers) (tu : Option String) (value : String) : Except JsError BVal :=
  match tu with
  | some t => convertByTag P t value
  | none => .error (.invalidType none)

/-- The valid type tags. -/
def validTags : List String := ["J", "N", "O", "R", "U", "S"]

/-- `exp._getQuery`: builds the Mongo query from the request parameters
(`collection.js` lines 51-77): a simple `{key: convertedValue}` equality
filter when `key` and `value` are both truthy, otherwise the raw `query`
literal through the safe parser, otherwise the empty filter. -/
def _getQuery (P : Parsers) (req : Req) : Except JsError BVal :=
  if truthy req.key && truthy req.value then
    let k := req.key.getD ""
    let v := req.value.getD ""
    (convertTagged P (req.type.map upStr) v).map (fun r => .obj [(k, r)])
  else
    match req.q with
    | some qs =>
      if !qs.isEmpty then
        match P.toSafeBSON qs with
        | none => .error .invalidQuery
        | some r => .ok r
      else .ok (.obj [])
    | none => .ok (.obj [])

/-- `exp._getSort` (`collection.js` lines 79-89): coerce each direction
string with `Number.parseInt` (possibly `NaN`). -/
def _getSort (req : Req) : List (String × JsNum) :=
  req.sort.map (fun fd =>
    (fd.1, match jsParseIntStr fd.2 with
           | some n => JsNum.int n
           | none => JsNum.nan))

/-- `exp._getProjection` (`collection.js` lines 91-97): parse the raw
projection literal, defaulting to the empty mapping when absent or
unparsable. -/
def _getProjection (P : Parsers) (req : Req) : BVal :=
  match req.projection with
  | some p => if !p.isEmpty then (P.toSafeBSON p).getD (.obj []) else .obj []
  | none => .obj []

/-- The resolved query options (`_getQueryOptions` result shape). -/
structure QueryOptionsX where
  sort : List (String × JsNum)
  limit : Int
  skip : Int
  projection : BVal
  allowDiskUse : Bool := false

/-- `exp._getQueryOptions` (`collection.js` lines 99-106):
`skip = Number.parseInt(req.query.skip, 10) || 0`. -/
def _getQueryOptions (P : Parsers) (cfg : Config) (req : Req) : QueryOptionsX :=
  { sort := _getSort req
    limit := cfg.options.documentsPerPage
    skip := (jsParseIntOpt req.skip).getD 0
    projection := _getProjection P req }

/-- `exp._getAggregatePipeline` (`collection.js` lines 108-128). -/
def _getAggregatePipeline (pipeline : List BVal) (o : QueryOptionsX) : List BVal :=
  pipeline
    ++ (if o.sort.length > 0 then
          [.obj [("$sort", .obj (o.sort.map (fun fd => (fd.1, .num fd.2))))]]
        else [])
    ++ [.obj [("$facet", .obj [
          ("count", .arr [.obj [("$count", .str "count")]]),
          ("items", .arr ([.obj [("$skip", .num (.int o.skip))],
                           .obj [("$limit", .num (.int (o.limit + o.skip)))]]
            ++ (if objKeysLen o.projection > 0 then
                  [.obj [("$project", o.projection)]]
                else [])))])]]

/-- The `{$facet: ...}` stage with the given items sub-pipeline and the
fused-count branch, as described by the spec for the pipeline builder. -/
def facetOf (itemsStages : List BVal) : BVal :=
  .obj [("$facet", .obj [
    ("count", .arr [.obj [("$count", .str "count")]]),
    ("items", .arr itemsStages)])]

/-- C1: for every user pipeline and resolved query options, the built
aggregation pipeline is the user stages, then a `$sort` stage exactly when
the sort mapping is non-empty, then a single `$facet` stage placed last
whose count branch is `[{$count: "count"}]` and whose items branch starts
with `{$skip: skip}` and `{$limit: limit + skip}`, followed by a
`{$project: projection}` stage exactly when the projection mapping is
non-empty. -/
theorem aggregatePipeline_shape (pipeline : List BVal) (o : QueryOptionsX) :
    _getAggregatePipeline pipeline o =
      pipeline
        ++ (if o.sort = [] then []
            else [.obj [("$sort", .obj (o.sort.map (fun fd => (fd.1, .num fd.2))))]])
        ++ [facetOf ([.obj [("$skip", .num (.int o.skip))],
                      .obj [("$limit", .num (.int (o.limit + o.skip)))]]
              ++ (if objKeysLen o.projection = 0 then []
                  else [.obj [("$project", o.projection)]]))]
    ∧ (_getAggregatePipeline pipeline o).getLast? =
        some (facetOf ([.obj [("$skip", .num (.int o.skip))],
                        .obj [("$limit", .num (.int (o.limit + o.skip)))]]
              ++ (if objKeysLen o.projection = 0 then []
                  else [.obj [("$project", o.projection)]]))) := by
  have hshape : _getAggregatePipeline pipeline o =
      pipeline
        ++ (if o.sort = [] then []
            else [.obj [("$sort", .obj (o.sort.map (fun fd => (fd.1, .num fd.2))))]])
        ++ [facetOf ([.obj [("$skip", .num (.int o.skip))],
                      .obj [("$limit", .num (.int (o.limit + o.skip)))]]
              ++ (if objKeysLen o.projection = 0 then []
                  else [.obj [("$project", o.projection)]]))] := by
    unfold _getAggregatePipeline facetOf
    cases hs : o.sort with
    | nil => cases hp : objKeysLen o.projection with
      | zero => simp [hs, hp]
      | succ n => simp [hs, hp]
    | cons a l => cases hp : objKeysLen o.projection with
      | zero => simp [hs, hp]
      | succ n => simp [hs, hp]
  refine ⟨hshape, ?_⟩
  rw [hshape]
  exact List.getLast?_concat _

/-- The page result assembled by `_getItemsAndCount`: the page of items
and the count (`undefined`, i.e. `none`, is possible on the aggregation
path when the count facet is empty). -/
structure PageResultX where
  items : List BVal
  count : Option BVal

/-- The document store collaborator, capability-shaped as in the spec:
`find`, `count` and `aggregate` (the latter taking the `allowDiskUse`
option passed by the route and returning the cursor's `toArray`). -/
structure Store where
  find : BVal → QueryOptionsX → List BVal
  count : BVal → Int
  aggregate : List BVal → Bool → List BVal

/-- The direct (non-aggregate) path of `_getItemsAndCount`
(`collection.js` lines 145-156): set `allowDiskUse` from the config, then
run the filtered, sorted, paged `find` and the separate `count` over the
same filter; the page result needs both. -/
def directPage (st : Store) (cfg : Config) (q : BVal) (o : QueryOptionsX) : PageResultX :=
  let o' := if cfg.mongodb.allowDiskUse && !cfg.mongodb.awsDocumentDb then
              { o with allowDiskUse := true } else o
  { items := st.find q o', count := some (.num (.int (st.count q))) }

/-- Extraction of the facet result (`collection.js` lines 135-140):
`const [resultArray] = await ...toArray()` throws when the cursor is
empty, then `{items, count}` are destructured and the returned count is
`count.at(0)?.count` (`undefined`, i.e. `none`, when the count branch is
empty). Non-array `items`/`count` fields are mapped to the type error the
JS evaluation would eventually raise. -/
def extractItemsAndCount (aggOut : List BVal) : Except JsError PageResultX :=
  match aggOut.head? with
  | none => .error .jsTypeError
  | some doc =>
    match lookupField "items" doc, lookupField "count" doc with
    | some (.arr xs), some (.arr cs) =>
      .ok { items := xs, count := cs.head?.bind (lookupField "count") }
    | _, _ => .error .jsTypeError

/-- `exp._getItemsAndCount` (`collection.js` lines 130-157): resolve the
query; when `runAggregate === 'on'` and the query is an array, run the
built aggregate pipeline if the array is non-empty and otherwise fall
through to the direct path with the empty filter; in every other case run
the direct path on the resolved query. -/
def _getItemsAndCount (st : Store) (cfg : Config) (P : Parsers) (req : Req)
    (o : QueryOptionsX) : Except JsError PageResultX :=
  (_getQuery P req).bind (fun query =>
    match query with
    | .arr stages =>
      if req.runAggregate = some "on" then
        if stages.length > 0 then
          extractItemsAndCount
            (st.aggregate (_getAggregatePipeline stages o) cfg.mongodb.allowDiskUse)
        else .ok (directPage st cfg (.obj []) o)
      else .ok (directPage st cfg (.arr stages) o)
    | q => .ok (directPage st cfg q o))

/-- C2: the executor takes the aggregation path exactly when the request
carries `runAggregate = "on"` and the resolved query is a non-empty
array (pipeline); with `runAggregate = "on"` and an empty parsed pipeline
it short-circuits to the direct path over the empty filter; in every
other case it runs the direct path, a filtered sorted paged `find` plus a
separate `count` over the same resolved filter, both feeding the page
result. -/
theorem itemsAndCount_path_decision (st : Store) (cfg : Config) (P : Parsers)
    (req : Req) (o : QueryOptionsX) (q : BVal)
    (hq : _getQuery P req = .ok q) :
    (∀ stages, q = .arr stages → stages ≠ [] → req.runAggregate = some "on" →
      _getItemsAndCount st cfg P req o =
        extractItemsAndCount
          (st.aggregate (_getAggregatePipeline stages o) cfg.mongodb.allowDiskUse)) ∧
    (q = .arr [] → req.runAggregate = some "on" →
      _getItemsAndCount st cfg P req o = .ok (directPage st cfg (.obj []) o)) ∧
    ((req.runAggregate ≠ some "on" ∨ ∀ stages, q ≠ .arr stages) →
      _getItemsAndCount st cfg P req o = .ok (directPage st cfg q o)) := by
  unfold _getItemsAndCount
  rw [hq]
  refine ⟨?_, ?_, ?_⟩
  · rintro stages rfl hne hon
    simp only [Except.bind]
    rw [if_pos hon, if_pos]
    cases stages with
    | nil => exact absurd rfl hne
    | cons a l => simp
  · rintro rfl hon
    simp only [Except.bind]
    rw [if_pos hon]
    simp
  · intro hcase
    cases q with
    | arr stages =>
      rcases hcase with hnon | hnotarr
      · simp only [Except.bind]
        rw [if_neg hnon]
      · exact absurd rfl (hnotarr stages)
    | null => rfl
    | jsUndefined => rfl
    | bool b => rfl
    | num n => rfl
    | str s => rfl
    | objectId h => rfl
    | regex p f => rfl
    | binary bs st => rfl
    | obj fs => rfl

/-- Concrete collaborators for the executor witness. -/
def stW : Store :=
  { find := fun _ _ => [], count := fun _ => 0, aggregate := fun _ _ => [] }

def cfgW : Config :=
  { options := { documentsPerPage := 10, maxPropSize := 100, maxRowSize := 1000 }
    mongodb := { allowDiskUse := false, awsDocumentDb := false } }

def parsersW : Parsers :=
  { jsonParse := fun _ => none
    toSafeBSON := fun s => if s = "[]" then some (.arr []) else none
    ejsonParse := fun _ => none }

def reqW : Req := { q := some "[]", runAggregate := some "on" }

def optsW : QueryOptionsX :=
  { sort := [], limit := 10, skip := 0, projection := .obj [] }

/-- Witness for C2: an explicit `runAggregate=on` request whose raw query
parses to the empty pipeline short-circuits to the direct path over the
empty filter. -/
theorem itemsAndCount_path_decision_witness :
    _getItemsAndCount stW cfgW parsersW reqW optsW =
      .ok (directPage stW cfgW (.obj []) optsW) :=
  (itemsAndCount_path_decision stW cfgW parsersW reqW optsW (.arr []) rfl).2.1 rfl rfl

/-- Modelled from the spec: the document store's evaluation of the single
`$facet` stage built by `_getAggregatePipeline` on the stream `matched` of
documents that passed the user stages (and `$sort`). The `count` branch
(`$count`) emits no document on an empty stream and otherwise one
`{count: n}` document; the `items` branch applies `$skip` (drop) then
`$limit` (take) in order, then `$project` (a per-document map `pf`,
present exactly when the projection is non-empty). The store executes
this stage only for non-negative skip and limit. -/
def facetDocFor (pf : BVal → BVal) (matched : List BVal) (o : QueryOptionsX) : BVal :=
  .obj [("count", .arr (if matched.length = 0 then []
                        else [.obj [("count", .num (.int matched.length))]])),
        ("items", .arr (
          let paged := (matched.drop o.skip.toNat).take ((o.limit + o.skip).toNat)
          if objKeysLen o.projection > 0 then paged.map pf else paged))]

/-- The aggregation path of `_getItemsAndCount` on a stream of matches:
the cursor returns the single facet document and lines 135-140 of
`collection.js` destructure it into the page result. -/
def aggregatePathPage (pf : BVal → BVal) (matched : List BVal)
    (o : QueryOptionsX) : Except JsError PageResultX :=
  extractItemsAndCount [facetDocFor pf matched o]

/-- Query options with `skip = 1`, `limit = 1` for the C6 counterexample. -/
def o6 : QueryOptionsX :=
  { sort := [], limit := 1, skip := 1, projection := .obj [] }

/-- Three matching documents for the C6 counterexample. -/
def m3 : List BVal := [.num (.int 1), .num (.int 2), .num (.int 3)]

/-- Counterexample to C6: at zero matches the aggregation path returns an
absent (`undefined`) count, not the integer zero; and at three matches
with `skip = 1`, `limit = 1` the returned page has two items, exceeding
the limit (the built `$limit` argument is `limit + skip` and it runs
after `$skip`). -/
theorem aggregatePage_counterexample :
    aggregatePathPage id ([] : List BVal) o6 = .ok { items := [], count := none } ∧
    ((none : Option BVal) ≠ some (.num (.int 0))) ∧
    aggregatePathPage id m3 o6 =
      .ok { items := [.num (.int 2), .num (.int 3)], count := some (.num (.int 3)) } ∧
    ¬ ([BVal.num (.int 2), BVal.num (.int 3)].length ≤ 1) :=
  ⟨rfl, fun h => Option.noConfusion h, rfl, by decide⟩

/-- C6 as amended: on the aggregation path the produced page result has
items of length at most `limit + skip` (not `limit`), and its count is
the total number of matches when there is at least one match but is
absent (`undefined`), not zero, when there are none. -/
theorem aggregatePage_amended (pf : BVal → BVal) (matched : List BVal)
    (o : QueryOptionsX) (hs : 0 ≤ o.skip) (hl : 0 ≤ o.limit) :
    ∃ pr, aggregatePathPage pf matched o = .ok pr ∧
      pr.items.length ≤ (o.limit + o.skip).toNat ∧
      pr.count = (if matched.isEmpty then none
                  else some (.num (.int matched.length))) := by
  clear hs hl
  refine ⟨{ items := if objKeysLen o.projection > 0
                then ((matched.drop o.skip.toNat).take ((o.limit + o.skip).toNat)).map pf
                else (matched.drop o.skip.toNat).take ((o.limit + o.skip).toNat),
            count := if matched.isEmpty then none
                     else some (.num (.int matched.length)) }, ?_, ?_, rfl⟩
  · cases matched with
    | nil =>
      simp [aggregatePathPage, extractItemsAndCount, facetDocFor, lookupField, lookupAL]
    | cons a l =>
      simp [aggregatePathPage, extractItemsAndCount, facetDocFor, lookupField, lookupAL]
  · by_cases hp : objKeysLen o.projection > 0
    · simp only [if_pos hp, List.length_map]
      exact List.length_take_le _ _
    · simp only [if_neg hp]
      exact List.length_take_le _ _

/-- Witness for the amended C6 at one match, `limit = 10`, `skip = 0`. -/
theorem aggregatePage_amended_witness :
    (0 : Int) ≤ optsW.skip ∧ (0 : Int) ≤ optsW.limit ∧
    ∃ pr, aggregatePathPage id [BVal.num (.int 7)] optsW = .ok pr ∧
      pr.items.length ≤ (optsW.limit + optsW.skip).toNat ∧
      pr.count = (if ([BVal.num (.int 7)] : List BVal).isEmpty then none
                  else some (.num (.int ([BVal.num (.int 7)] : List BVal).length))) :=
  ⟨by decide, by decide,
   aggregatePage_amended id [BVal.num (.int 7)] optsW (by decide) (by decide)⟩

/-- C4: with `key` and `value` both present (truthy), a request whose
case-insensitively uppercased `type` tag is not one of `J,N,O,R,U,S`
(or whose `type` is absent) makes the query builder fail with the
invalid-type error, producing no filter; and for every tag in that set a
successful conversion returns a value of the tag's declared shape:
`J` the parsed JSON literal, `N` a number, `O` a 24-hex identifier,
`R` a case-insensitive pattern value, `U` a UUID-subtype binary value,
`S` the unchanged string. -/
theorem getQuery_typeTag_validation (P : Parsers) (req : Req) (k v : String)
    (hk : req.key = some k) (hkne : k ≠ "") (hv : req.value = some v) (hvne : v ≠ "") :
    ((match req.type.map upStr with
      | some t => t ∉ validTags
      | none => True) →
      _getQuery P req = .error (.invalidType (req.type.map upStr))) ∧
    (∀ w, P.jsonParse v = some w → convertByTag P "J" v = .ok w) ∧
    (convertByTag P "N" v = .ok (.num (jsNumber v))) ∧
    (v.length = 24 ∧ v.toList.all (fun c => (hexVal c).isSome) →
      convertByTag P "O" v = .ok (.objectId v)) ∧
    (convertByTag P "R" v = .ok (.regex v "i")) ∧
    (convertByTag P "U" v =
      .ok (.binary (hexPairs ((v.replace "-" "").toList)) SUBTYPE_UUID)) ∧
    (convertByTag P "S" v = .ok (.str v)) := by
  have hke : (String.isEmpty k) = false := by
    cases he : String.isEmpty k
    · rfl
    · exact absurd ((String.isEmpty_iff k).mp he) hkne
  have hve : (String.isEmpty v) = false := by
    cases he : String.isEmpty v
    · rfl
    · exact absurd ((String.isEmpty_iff v).mp he) hvne
  have htr : (truthy req.key && truthy req.value) = true := by
    rw [hk, hv]
    simp [truthy, hke, hve]
  refine ⟨?_, ?_, rfl, ?_, rfl, rfl, rfl⟩
  · intro hbad
    unfold _getQuery
    rw [htr, if_pos rfl]
    cases ht : req.type with
    | none =>
      simp [convertTagged, Except.map]
    | some t =>
      have hnotin : upStr t ∉ validTags := by
        rw [ht] at hbad
        simpa using hbad
      have hconv : convertByTag P (upStr t) (req.value.getD "") =
          .error (.invalidType (some (upStr t))) := by
        unfold convertByTag
        have hJ : ¬ upStr t = "J" :=
          fun h => hnotin (by rw [h]; simp [validTags])
        have hN : ¬ upStr t = "N" :=
          fun h => hnotin (by rw [h]; simp [validTags])
        have hO : ¬ upStr t = "O" :=
          fun h => hnotin (by rw [h]; simp [validTags])
        have hR : ¬ upStr t = "R" :=
          fun h => hnotin (by rw [h]; simp [validTags])
        have hU : ¬ upStr t = "U" :=
          fun h => hnotin (by rw [h]; simp [validTags])
        have hS : ¬ upStr t = "S" :=
          fun h => hnotin (by rw [h]; simp [validTags])
        rw [if_neg hJ, if_neg hN, if_neg hO, if_neg hR, if_neg hU, if_neg hS]
      simp [convertTagged, hconv, Except.map]
  · intro w hw
    unfold convertByTag
    rw [if_pos rfl, hw]
  · intro hok
    unfold convertByTag parseObjectId
    rw [if_neg (by decide), if_neg (by decide), if_pos rfl, if_pos hok]

/-- Request with an unrecognized type tag for the C4 witness. -/
def reqBadTag : Req := { key := some "a", value := some "v", type := some "x" }

/-- Witness for C4: tag `x` (uppercased `X`) is rejected with the
invalid-type error, and the `S` converter returns the unchanged string. -/
theorem getQuery_typeTag_validation_witness :
    _getQuery parsersW reqBadTag = .error (.invalidType (some "X")) ∧
    convertByTag parsersW "S" "v" = .ok (.str "v") := by
  refine ⟨?_, ?_⟩
  · exact (getQuery_typeTag_validation parsersW reqBadTag "a" "v" rfl (by decide) rfl
      (by decide)).1 (by show ("X" : String) ∉ validTags; decide)
  · exact (getQuery_typeTag_validation parsersW reqBadTag "a" "v" rfl (by decide) rfl
      (by decide)).2.2.2.2.2.2

/-- C5: with `key` and `value` both present (truthy) and a successfully
converting type tag, the query builder returns the single-key equality
filter whose value is the typed converter applied to the raw value. -/
theorem getQuery_simple_equality_filter (P : Parsers) (req : Req) (k v : String)
    (r : BVal) (hk : req.key = some k) (hkne : k ≠ "") (hv : req.value = some v)
    (hvne : v ≠ "")
    (hc : convertTagged P (req.type.map upStr) v = .ok r) :
    _getQuery P req = .ok (.obj [(k, r)]) := by
  have hke : (String.isEmpty k) = false := by
    cases he : String.isEmpty k
    · rfl
    · exact absurd ((String.isEmpty_iff k).mp he) hkne
  have hve : (String.isEmpty v) = false := by
    cases he : String.isEmpty v
    · rfl
    · exact absurd ((String.isEmpty_iff v).mp he) hvne
  have htr : (truthy req.key && truthy req.value) = true := by
    rw [hk, hv]
    simp [truthy, hke, hve]
  unfold _getQuery
  rw [htr, if_pos rfl, hk, hv]
  simp only [Option.getD_some]
  rw [hc]
  rfl

/-- The spec's two simple-query scenario requests. -/
def reqNameS : Req := { key := some "name", value := some "Alice", type := some "S" }

def reqAgeN : Req := { key := some "age", value := some "42", type := some "N" }

/-- Witness for C5: `key="name", value="Alice", type="S"` yields
`{name: "Alice"}` and `key="age", value="42", type="N"` yields `{age: 42}`. -/
theorem getQuery_simple_equality_filter_witness :
    _getQuery parsersW reqNameS = .ok (.obj [("name", .str "Alice")]) ∧
    _getQuery parsersW reqAgeN = .ok (.obj [("age", .num (.int 42))]) :=
  ⟨getQuery_simple_equality_filter parsersW reqNameS "name" "Alice" (.str "Alice")
     rfl (by decide) rfl (by decide) (by rfl),
   getQuery_simple_equality_filter parsersW reqAgeN "age" "42" (.num (.int 42))
     rfl (by decide) rfl (by decide) (by rfl)⟩

/-- C10: the simple-query branch is taken only when both `key` and
`value` are truthy; when the pair is falsy (for instance `key` present
with an empty `value`, or the reverse), it is silently ignored and the
builder falls through to the raw query literal when present, else returns
the empty filter. -/
theorem getQuery_falsy_pair_fallthrough (P : Parsers) (req : Req)
    (hfalsy : (truthy req.key && truthy req.value) = false) :
    (req.q = none → _getQuery P req = .ok (.obj [])) ∧
    (∀ qs w, req.q = some qs → qs ≠ "" → P.toSafeBSON qs = some w →
      _getQuery P req = .ok w) := by
  unfold _getQuery
  rw [hfalsy]
  simp only [Bool.false_eq_true, if_false]
  constructor
  · intro hq
    rw [hq]
  · intro qs w hq hne hw
    have hqe : (String.isEmpty qs) = false := by
      cases he : String.isEmpty qs
      · rfl
      · exact absurd ((String.isEmpty_iff qs).mp he) hne
    rw [hq]
    simp [hqe, hw]

/-- Request with `key` present but `value` empty, plus a raw query. -/
def reqEmptyVal : Req := { key := some "name", value := some "", q := some "[]" }

/-- Request with `key` present but `value` empty and no raw query. -/
def reqEmptyValNoQ : Req := { key := some "name", value := some "" }

/-- Witness for C10: with `key="name"` and an empty `value`, the pair is
ignored: the raw query literal is used when present, and the empty filter
is returned otherwise. -/
theorem getQuery_falsy_pair_fallthrough_witness :
    _getQuery parsersW reqEmptyVal = .ok (.arr []) ∧
    _getQuery parsersW reqEmptyValNoQ = .ok (.obj []) :=
  ⟨(getQuery_falsy_pair_fallthrough parsersW reqEmptyVal (by decide)).2
     "[]" (.arr []) rfl (by decide) rfl,
   (getQuery_falsy_pair_fallthrough parsersW reqEmptyValNoQ (by decide)).1 rfl⟩

/-- The import MIME allow-list of `collection.js`. -/
def ALLOWED_MIME_TYPES : List String := ["text/csv", "application/json"]

/-- An uploaded payload: its MIME type, whether `file.data` is present
(a Buffer, whose `toString` always exists), and its UTF-8 content. -/
structure UploadFile where
  mimetype : String
  hasData : Bool
  content : String

/-- The observable outcome of `importCollection`: the three 400 responses
(`Missing file`, `Bad file`, `Bad file content`) or the 200 response with
the store-confirmed inserted count (the store inserts every delegated
document, so `insertMany` confirms the batch length). -/
inductive ImportOutcome where
  | missingFile
  | badFile
  | badFileContent
  | inserted (n : Nat)
deriving DecidableEq

/-- JS spread `docs.push(...parsedData)`: an array spreads into its
elements and a string into its characters; every other value (in
particular a plain parsed object) is not iterable, so the spread throws a
TypeError (`none`), which the surrounding `try` turns into the
`Bad file content` response. -/
def spreadIntoDocs : BVal → Option (List BVal)
  | .arr xs => some xs
  | .str s => some (s.toList.map (fun c => .str (String.mk [c])))
  | _ => none

/-- Split a character list at newlines. -/
def splitNl : List Char → List (List Char)
  | [] => [[]]
  | c :: rest =>
    let r := splitNl rest
    if c = '\n' then [] :: r
    else
      match r with
      | h :: t => (c :: h) :: t
      | [] => [[c]]

/-- `content.split('\n').map(trim).filter(Boolean)`. -/
def nonBlankLines (content : String) : List String :=
  (((splitNl content.toList).map trimCs).filter (fun l => !l.isEmpty)).map String.mk

/-- Parse one payload's lines and flatten them into the accumulator,
failing on the first line whose `EJSON.parse` throws or whose parsed
value cannot be spread. -/
def parseFileDocs (P : Parsers) (content : String) : Option (List BVal) :=
  (nonBlankLines content).foldl
    (fun acc line => acc.bind (fun ds =>
      ((P.ejsonParse line).bind spreadIntoDocs).map (fun new => ds ++ new)))
    (some [])

/-- `exp.importCollection` (`collection.js` lines 492-527): reject a
missing `req.files`, reject any payload with a disallowed MIME type or
missing data, then parse all payloads line by line (aborting the whole
batch, with nothing inserted, on the first failure) and delegate the flat
batch to `insertMany`, reporting its inserted count. -/
def importCollection (P : Parsers) (files? : Option (List UploadFile)) : ImportOutcome :=
  match files? with
  | none => .missingFile
  | some files =>
    if files.any (fun f => !ALLOWED_MIME_TYPES.contains f.mimetype || !f.hasData) then
      .badFile
    else
      match files.foldl
        (fun acc f => acc.bind (fun ds => (parseFileDocs P f.content).map (ds ++ ·)))
        (some []) with
      | none => .badFileContent
      | some docs => .inserted docs.length

/-- `EJSON.parse` behaviour on the two well-formed single-object lines of
the C3 failing input. -/
def ejsonTwoObjects : String → Option BVal := fun s =>
  if s = "\x7b\"a\": 1\x7d" then some (.obj [("a", .num (.int 1))])
  else if s = "\x7b\"b\": 2\x7d" then some (.obj [("b", .num (.int 2))])
  else none

def parsersImp : Parsers :=
  { jsonParse := fun _ => none
    toSafeBSON := fun _ => none
    ejsonParse := ejsonTwoObjects }

/-- A single allowed upload whose content is two well-formed
single-object literal lines. -/
def importTwoObjectLines : Option (List UploadFile) :=
  some [{ mimetype := "application/json", hasData := true,
          content := "\x7b\"a\": 1\x7d\n\x7b\"b\": 2\x7d" }]

/-- C3 failing input evaluated: a batch of two well-formed single-object
literal lines is rejected with `Bad file content` (the parsed objects are
spread with `docs.push(...parsedData)` and plain objects are not
iterable) and zero documents are inserted, where the claim requires a
store-confirmed inserted count of 2. -/
theorem importCollection_singleObjectLines_fail :
    importCollection parsersImp importTwoObjectLines = .badFileContent ∧
    ImportOutcome.badFileContent ≠ ImportOutcome.inserted 2 :=
  ⟨by decide, by decide⟩

/-- Config used by the C9 theorems. -/
def cfg9 : Config :=
  { options := { documentsPerPage := 10, maxPropSize := 1000, maxRowSize := 1000 }
    mongodb := { allowDiskUse := false, awsDocumentDb := false } }

/-- Request carrying a negative raw `skip`. -/
def reqNegSkip : Req := { skip := some "-5" }

/-- Counterexample to C9: the raw parameter `skip=-5` resolves to the
negative skip `-5` (the code only replaces `NaN` by `0`, it does not
clamp negative values), so the resolved options are not non-negative for
every raw skip. -/
theorem queryOptions_negative_skip_counterexample :
    (_getQueryOptions parsersW cfg9 reqNegSkip).skip = -5 ∧
    ¬ (0 ≤ (_getQueryOptions parsersW cfg9 reqNegSkip).skip) := by
  constructor
  · rfl
  · decide

/-- C9 as amended: the resolved limit always equals the configured page
size (hence is positive and bounded whenever the configuration is
positive), and the resolved skip is `0` when the raw skip is absent or
non-numeric; a numeric raw skip — including a negative one — is passed
through unchanged. -/
theorem queryOptions_bounds_amended (P : Parsers) (cfg : Config) (req : Req)
    (hpp : 0 < cfg.options.documentsPerPage) :
    (_getQueryOptions P cfg req).limit = cfg.options.documentsPerPage ∧
    0 < (_getQueryOptions P cfg req).limit ∧
    (_getQueryOptions P cfg req).limit ≤ cfg.options.documentsPerPage ∧
    (req.skip = none → (_getQueryOptions P cfg req).skip = 0) ∧
    (∀ s, req.skip = some s → jsParseIntStr s = none →
        (_getQueryOptions P cfg req).skip = 0) ∧
    (∀ s n, req.skip = some s → jsParseIntStr s = some n →
        (_getQueryOptions P cfg req).skip = n) := by
  refine ⟨rfl, hpp, le_refl _, ?_, ?_, ?_⟩
  · intro h
    simp [_getQueryOptions, jsParseIntOpt, h]
  · intro s hs hn
    simp [_getQueryOptions, jsParseIntOpt, hs, hn]
  · intro s n hs hn
    simp [_getQueryOptions, jsParseIntOpt, hs, hn]

/-- Request carrying a non-numeric raw `skip`. -/
def reqAbcSkip : Req := { skip := some "abc" }

/-- Witness for the amended C9 at page size 10 and raw `skip=abc`. -/
theorem queryOptions_bounds_amended_witness :
    (0 : Int) < cfg9.options.documentsPerPage ∧
    (_getQueryOptions parsersW cfg9 reqAbcSkip).limit = 10 ∧
    (_getQueryOptions parsersW cfg9 reqAbcSkip).skip = 0 := by
  refine ⟨by decide, ?_, ?_⟩
  · exact (queryOptions_bounds_amended parsersW cfg9 reqAbcSkip (by decide)).1
  · exact (queryOptions_bounds_amended parsersW cfg9 reqAbcSkip (by decide)).2.2.2.2.1
      "abc" rfl (by decide)

mutual
/-- Modelled from the spec: `utils.roughSizeOfObject` (in `lib/utils.js`,
not under `src/`): heuristic byte accounting over the value's structure —
strings and buffers contribute their length, numbers 8 bytes, booleans 4,
and structures the recursive sum of their entries with a constant
per-entry overhead of 8. -/
def roughSizeOfObject : BVal → Nat
  | .null => 0
  | .jsUndefined => 0
  | .bool _ => 4
  | .num _ => 8
  | .str s => s.length
  | .objectId h => h.length
  | .regex p f => p.length + f.length
  | .binary bs _ => bs.length
  | .obj fs => roughSizeFields fs
  | .arr xs => roughSizeElems xs

def roughSizeFields : List (String × BVal) → Nat
  | [] => 0
  | (_, v) :: rest => 8 + roughSizeOfObject v + roughSizeFields rest

def roughSizeElems : List BVal → Nat
  | [] => 0
  | v :: rest => 8 + roughSizeOfObject v + roughSizeElems rest
end

mutual
/-- `JSON.stringify` over the embedded values, used only to produce the
bounded preview text of a redaction stub (string escaping, dropping of
`undefined`-valued fields and BSON-scalar `toJSON` details are outside
this model; `undefined`, patterns and binaries render as fixed tokens). -/
def jsonStringify : BVal → String
  | .null => "null"
  | .jsUndefined => "null"
  | .bool b => cond b "true" "false"
  | .num (.int n) => toString n
  | .num .nan => "null"
  | .str s => "\"" ++ s ++ "\""
  | .objectId h => "\"" ++ h ++ "\""
  | .regex _ _ => "\x7b\x7d"
  | .binary _ _ => "\x7b\x7d"
  | .obj fs => "\x7b" ++ stringifyFields fs ++ "\x7d"
  | .arr xs => "[" ++ stringifyElems xs ++ "]"

def stringifyFields : List (String × BVal) → String
  | [] => ""
  | [(p, v)] => "\"" ++ p ++ "\":" ++ jsonStringify v
  | (p, v) :: rest => "\"" ++ p ++ "\":" ++ jsonStringify v ++ "," ++ stringifyFields rest

def stringifyElems : List BVal → String
  | [] => ""
  | [v] => jsonStringify v
  | v :: rest => jsonStringify v ++ "," ++ stringifyElems rest
end

/-- Modelled from the spec: `utils.bytesToSize` renders a byte count as a
human-readable size string. -/
def bytesToSize (bytes : Nat) : String :=
  if bytes < 1024 then toString bytes ++ " Bytes"
  else if bytes < 1024 * 1024 then toString (bytes / 1024) ++ " KB"
  else if bytes < 1024 * 1024 * 1024 then toString (bytes / (1024 * 1024)) ++ " MB"
  else toString (bytes / (1024 * 1024 * 1024)) ++ " GB"

/-- `JSON.stringify(v).slice(0, n)`. -/
def takeStr (s : String) (n : Nat) : String :=
  String.mk (s.toList.take n)

/-- The per-field redaction stub of `viewCollection` (`collection.js`
lines 188-196), built from the current document state (its `_id` may
itself already have been replaced earlier in the loop). -/
def propStub (cfg : Config) (prop : String) (v : BVal) (idv : BVal) : BVal :=
  .obj [("attribu", .str prop),
        ("display", .str "*** LARGE PROPERTY ***"),
        ("humanSz", .str (bytesToSize (roughSizeOfObject v))),
        ("maxSize", .str (bytesToSize cfg.options.maxPropSize)),
        ("preview", .str (takeStr (jsonStringify v) 25)),
        ("roughSz", .num (.int (roughSizeOfObject v))),
        ("_id", idv)]

/-- The per-row redaction stub (`collection.js` lines 204-212). -/
def rowStub (cfg : Config) (prop : String) (v : BVal) (idv : BVal) : BVal :=
  .obj [("attribu", .str prop),
        ("display", .str "*** LARGE ROW ***"),
        ("humanSz", .str (bytesToSize (roughSizeOfObject v))),
        ("maxSize", .str (bytesToSize cfg.options.maxRowSize)),
        ("preview", .str (takeStr (jsonStringify v) 25)),
        ("roughSz", .num (.int (roughSizeOfObject v))),
        ("_id", idv)]

/-- One iteration of the per-field pass (`for (const prop in items[i])`,
lines 186-198): every field — the identifier included — whose size
exceeds `maxPropSize` is replaced in place by a stub. -/
def pass1Step (cfg : Config) (d : Doc) (p : String) : Doc :=
  let v := getField d p
  if roughSizeOfObject v > cfg.options.maxPropSize then
    setField p (propStub cfg p v (getField d "_id")) d
  else d

/-- The per-field pass: fold the mutation over the document's keys. -/
def pass1 (cfg : Config) (d : Doc) : Doc :=
  (d.map Prod.fst).foldl (pass1Step cfg) d

/-- One iteration of the per-row pass (lines 202-214): every non-`_id`
field larger than the secondary threshold 200 is replaced by a stub. -/
def pass2Step (cfg : Config) (d : Doc) (p : String) : Doc :=
  let v := getField d p
  if p ≠ "_id" ∧ roughSizeOfObject v > 200 then
    setField p (rowStub cfg p v (getField d "_id")) d
  else d

/-- The per-row pass. -/
def pass2 (cfg : Config) (d : Doc) : Doc :=
  (d.map Prod.fst).foldl (pass2Step cfg) d

/-- The two-pass size guard applied to one result document
(`collection.js` lines 184-215): the per-field pass, then — only if the
document is still larger than `maxRowSize` — the per-row pass. -/
def sizeGuard (cfg : Config) (d : Doc) : Doc :=
  if roughSizeOfObject (.obj (pass1 cfg d)) > cfg.options.maxRowSize then
    pass2 cfg (pass1 cfg d)
  else pass1 cfg d

lemma lookupAL_mem {k : String} {v : BVal} :
    ∀ {d : Doc}, lookupAL k d = some v → (k, v) ∈ d := by
  intro d
  induction d with
  | nil => intro h; exact absurd h (by simp [lookupAL])
  | cons pv rest ih =>
    obtain ⟨p, w⟩ := pv
    intro h
    rw [lookupAL] at h
    by_cases hpk : p = k
    · rw [if_pos hpk] at h
      subst hpk
      cases h
      exact List.mem_cons_self _ _
    · rw [if_neg hpk] at h
      exact List.mem_cons_of_mem _ (ih h)

lemma pass1Step_noop {cfg : Config} {d : Doc}
    (hsmall : ∀ pv ∈ d, roughSizeOfObject pv.2 ≤ cfg.options.maxPropSize)
    (p : String) : pass1Step cfg d p = d := by
  unfold pass1Step getField
  cases hl : lookupAL p d with
  | none =>
    simp only [Option.getD_none]
    rw [if_neg (by simp [roughSizeOfObject])]
  | some v =>
    have hv : roughSizeOfObject v ≤ cfg.options.maxPropSize :=
      hsmall (p, v) (lookupAL_mem hl)
    simp only [Option.getD_some]
    rw [if_neg (by omega)]

lemma pass1_noop {cfg : Config} {d : Doc}
    (hsmall : ∀ pv ∈ d, roughSizeOfObject pv.2 ≤ cfg.options.maxPropSize) :
    pass1 cfg d = d := by
  unfold pass1
  generalize (d.map Prod.fst) = ks
  induction ks with
  | nil => rfl
  | cons k rest ih =>
    rw [List.foldl_cons, pass1Step_noop hsmall k]
    exact ih

/-- The size guard is the identity on a document whose every field is at
most the per-field threshold and whose total size is at most the per-row
threshold. -/
lemma sizeGuard_noop {cfg : Config} {d : Doc}
    (hsmall : ∀ pv ∈ d, roughSizeOfObject pv.2 ≤ cfg.options.maxPropSize)
    (hrow : roughSizeOfObject (.obj d) ≤ cfg.options.maxRowSize) :
    sizeGuard cfg d = d := by
  unfold sizeGuard
  rw [pass1_noop hsmall, if_neg (by omega)]

/-- Projection used to compare `_id` values across a redaction run. -/
def strOf : Option BVal → Option String
  | some (.str s) => some s
  | _ => none

/-- Config with a tiny per-field threshold and a huge per-row threshold. -/
def cfg7 : Config :=
  { options := { documentsPerPage := 10, maxPropSize := 4, maxRowSize := 1000000 }
    mongodb := { allowDiskUse := false, awsDocumentDb := false } }

/-- A document whose only field is an oversized `_id`. -/
def d7 : Doc := [("_id", .str "0123456789")]

/-- Counterexample to C7: the per-field pass has no identifier exclusion,
so a document whose `_id` exceeds the per-field threshold gets its `_id`
value replaced by a redaction stub. -/
theorem sizeGuard_id_redacted_counterexample :
    strOf (lookupAL "_id" (sizeGuard cfg7 d7)) = none ∧
    strOf (lookupAL "_id" d7) = some "0123456789" ∧
    lookupAL "_id" (sizeGuard cfg7 d7) ≠ lookupAL "_id" d7 := by
  refine ⟨by decide, by decide, ?_⟩
  intro h
  have h2 := congrArg strOf h
  revert h2
  decide

/-- Config and document for the C7 witness: everything below thresholds. -/
def cfg7w : Config :=
  { options := { documentsPerPage := 10, maxPropSize := 100, maxRowSize := 1000 }
    mongodb := { allowDiskUse := false, awsDocumentDb := false } }

def d7w : Doc := [("_id", .str "abc"), ("a", .num (.int 1))]

/-- C7 as amended: the per-field pass applies the same size test to every
field, the identifier included (only the per-row pass exempts `_id`), and
a document whose every field is at most the per-field threshold and whose
total size is at most the per-row threshold is passed through unmodified
by the size guard. -/
theorem sizeGuard_below_thresholds_identity (cfg : Config) (d : Doc)
    (hsmall : ∀ pv ∈ d, roughSizeOfObject pv.2 ≤ cfg.options.maxPropSize)
    (hrow : roughSizeOfObject (.obj d) ≤ cfg.options.maxRowSize) :
    sizeGuard cfg d = d :=
  sizeGuard_noop hsmall hrow

/-- Witness for the amended C7 on a small two-field document. -/
theorem sizeGuard_below_thresholds_identity_witness :
    (∀ pv ∈ d7w, roughSizeOfObject pv.2 ≤ cfg7w.options.maxPropSize) ∧
    roughSizeOfObject (.obj d7w) ≤ cfg7w.options.maxRowSize ∧
    sizeGuard cfg7w d7w = d7w :=
  ⟨by decide, by decide,
   sizeGuard_below_thresholds_identity cfg7w d7w (by decide) (by decide)⟩

/-- Projection reading the `roughSz` component of the stub stored under
field `a`, used to tell two redaction runs apart. -/
def roughSzOf (d : Doc) : Option JsNum :=
  match lookupAL "a" d with
  | some (.obj fs) =>
    match lookupAL "roughSz" fs with
    | some (.num n) => some n
    | _ => none
  | _ => none

/-- Config with per-field threshold zero: every non-empty field gets
redacted, and the stub itself is over the threshold again. -/
def cfg8 : Config :=
  { options := { documentsPerPage := 10, maxPropSize := 0, maxRowSize := 1000000 }
    mongodb := { allowDiskUse := false, awsDocumentDb := false } }

def d8 : Doc := [("a", .str "xx")]

/-- Counterexample to C8: a stub's computed size is not below every
configured per-field threshold; with `maxPropSize = 0` the first
application stores a stub with `roughSz = 2` and the second application
redacts that stub again (its `roughSz` becomes the stub's own size), so
re-applying the guard is not a no-op. -/
theorem sizeGuard_not_idempotent_counterexample :
    roughSzOf (sizeGuard cfg8 (sizeGuard cfg8 d8)) ≠ roughSzOf (sizeGuard cfg8 d8) ∧
    sizeGuard cfg8 (sizeGuard cfg8 d8) ≠ sizeGuard cfg8 d8 :=
  ⟨by decide, fun h => absurd (congrArg roughSzOf h) (by decide)⟩

/-- Config and document for the C8 witness: the field is redacted once
and the resulting stub is below both thresholds. -/
def cfg8w : Config :=
  { options := { documentsPerPage := 10, maxPropSize := 140, maxRowSize := 10000 }
    mongodb := { allowDiskUse := false, awsDocumentDb := false } }

def d8w : Doc := [("a", .str (String.mk (List.replicate 150 'x')))]

/-- C8 as amended: re-applying the size guard to an already-redacted
document is a no-op provided every field of the redacted document
(stubs included) is at most the per-field threshold and the redacted
document's total size is at most the per-row threshold; a stub whose
computed size exceeds the per-field threshold (for instance under a tiny
configured threshold, or with a huge identifier or attribute name) is
redacted again. -/
theorem sizeGuard_conditional_idempotent (cfg : Config) (d : Doc)
    (hsmall : ∀ pv ∈ sizeGuard cfg d, roughSizeOfObject pv.2 ≤ cfg.options.maxPropSize)
    (hrow : roughSizeOfObject (.obj (sizeGuard cfg d)) ≤ cfg.options.maxRowSize) :
    sizeGuard cfg (sizeGuard cfg d) = sizeGuard cfg d :=
  sizeGuard_noop hsmall hrow

/-- Witness for the amended C8: one oversized field is redacted, the stub
is below both thresholds, and the second application is a no-op. -/
theorem sizeGuard_conditional_idempotent_witness :
    (∀ pv ∈ sizeGuard cfg8w d8w, roughSizeOfObject pv.2 ≤ cfg8w.options.maxPropSize) ∧
    roughSizeOfObject (.obj (sizeGuard cfg8w d8w)) ≤ cfg8w.options.maxRowSize ∧
    sizeGuard cfg8w (sizeGuard cfg8w d8w) = sizeGuard cfg8w d8w :=
  ⟨by decide, by decide,
   sizeGuard_conditional_idempotent cfg8w d8w (by decide) (by decide)⟩
